import Mathlib

/-!
Shallow embedding of the Magink ink! contract (src/contract/lib.rs).

The contract stores one `Profile` per `AccountId` in `user : Mapping<AccountId, Profile>`.
We model `AccountId` as `Nat`, the mapping as `Nat → Option Profile`, and the two
host primitives `self.env().block_number() : u32` and `self.env().caller()` as explicit
`Nat` parameters of every operation.

Machine arithmetic: `claim_era` and `badges_claimed` are `u8`, `start_block` and
`block_number()` are `u32`.  The contract is an ink! smart contract built with
overflow checks enabled (the standard cargo-contract build profile), so `u8`/`u32`
addition and subtraction that leaves the type's range is a panic (contract trap),
not a wraparound.  A panicking execution is modelled as `none`; `as u8` casts
truncate modulo 256 (Rust `as` casts never panic).
-/

namespace Magink

/-- The two error variants of `enum Error` in src/contract/lib.rs. -/
inductive Error where
  | TooEarlyToClaim : Error
  | UserNotFound : Error
deriving DecidableEq, Repr

/-- The `Profile` storage struct: `claim_era : u8`, `start_block : u32`,
`badges_claimed : u8`, modelled over `Nat`. -/
structure Profile where
  claim_era : Nat
  start_block : Nat
  badges_claimed : Nat
deriving DecidableEq, Repr

/-- The contract storage `user : Mapping<AccountId, Profile>`. -/
def Store : Type := Nat → Option Profile

/-- `Mapping::insert`: point update of the store. -/
def insert (s : Store) (k : Nat) (p : Profile) : Store :=
  fun a => if a = k then some p else s a

/-- Checked unsigned subtraction: Rust `a - b` on `u32` (or `u8`) with overflow
checks panics when `b > a`; the panic is `none`. -/
def checkedSub (a b : Nat) : Option Nat :=
  if b ≤ a then some (a - b) else none

/-- Checked `u8` addition: Rust `a + b` on `u8` with overflow checks panics when
the sum exceeds 255. -/
def checkedAdd8 (a b : Nat) : Option Nat :=
  if a + b ≤ 255 then some (a + b) else none

/-- Rust `as u8` cast: truncation modulo 256, never panics. -/
def truncU8 (n : Nat) : Nat := n % 256

/-- `get_account_profile(account)`: `self.user.get(&account)`. -/
def get_account_profile (s : Store) (account : Nat) : Option Profile :=
  s account

/-- `get_profile()`: `self.user.get(&caller)` for the implicit caller. -/
def get_profile (s : Store) (caller : Nat) : Option Profile :=
  s caller

/-- `start(era)`: unconditionally inserts
`Profile { claim_era: era, start_block: block_number(), badges_claimed: 0 }`
for the caller. -/
def start (s : Store) (current_block caller era : Nat) : Store :=
  insert s caller ⟨era, current_block, 0⟩

/-- `get_remaining()`: for the implicit caller,
`self.user.get(&caller).map_or(0, |profile| { if current_block - profile.start_block >= profile.claim_era as u32 { return 0 } profile.claim_era - (current_block - profile.start_block) as u8 })`. -/
def get_remaining (s : Store) (current_block caller : Nat) : Option Nat :=
  match s caller with
  | none => some 0
  | some profile =>
    match checkedSub current_block profile.start_block with
    | none => none
    | some elapsed =>
      if profile.claim_era ≤ elapsed then some 0
      else checkedSub profile.claim_era (truncU8 elapsed)

/-- `get_remaining_for(account)`: textually the same computation as
`get_remaining`, for an explicit account instead of the caller. -/
def get_remaining_for (s : Store) (current_block account : Nat) : Option Nat :=
  match s account with
  | none => some 0
  | some profile =>
    match checkedSub current_block profile.start_block with
    | none => none
    | some elapsed =>
      if profile.claim_era ≤ elapsed then some 0
      else checkedSub profile.claim_era (truncU8 elapsed)

/-- `get_badges()`: `self.get_profile().map_or(0, |profile| profile.badges_claimed)`. -/
def get_badges (s : Store) (caller : Nat) : Nat :=
  match get_profile s caller with
  | none => 0
  | some profile => profile.badges_claimed

/-- `get_badges_for(account)`:
`self.get_account_profile(account).map_or(0, |profile| profile.badges_claimed)`. -/
def get_badges_for (s : Store) (account : Nat) : Nat :=
  match get_account_profile s account with
  | none => 0
  | some profile => profile.badges_claimed

/-- `claim()`:
`ensure!(self.get_remaining() == 0, Error::TooEarlyToClaim)`, then
`let mut profile = self.get_profile().ok_or(Error::UserNotFound).unwrap()` —
note the `.unwrap()`: when `get_profile` is `None` this panics instead of
returning the error — then `profile.badges_claimed += 1`,
`profile.start_block = block_number()`, `self.user.insert(caller, &profile)`.
The result is the returned `Result<(), Error>` paired with the post-state;
`none` is a panic (trap). -/
def claim (s : Store) (current_block caller : Nat) : Option (Except Error Unit × Store) :=
  match get_remaining s current_block caller with
  | none => none
  | some r =>
    if r = 0 then
      match get_profile s caller with
      | none => none
      | some profile =>
        match checkedAdd8 profile.badges_claimed 1 with
        | none => none
        | some b =>
          some (Except.ok (), insert s caller ⟨profile.claim_era, current_block, b⟩)
    else
      some (Except.error Error.TooEarlyToClaim, s)

/-- The empty store produced by the `new()` constructor. -/
def emptyStore : Store := fun _ => none

/-- A store whose only profile, at account 0, has `claim_era = 0`, `start_block = 0`
and a saturated badge counter `badges_claimed = 255`. -/
def storeMaxBadges : Store := fun a => if a = 0 then some ⟨0, 0, 255⟩ else none

/-- A store where account 0 started a 10-tick era at tick 0 (the spec's scenario). -/
def storeStart10 : Store := start emptyStore 0 0 10

/-- Helper: when no profile exists, `get_remaining` defaults to 0 via `map_or`. -/
theorem get_remaining_of_none (s : Store) (t c : Nat) (h : s c = none) :
    get_remaining s t c = some 0 := by
  unfold get_remaining
  rw [h]

/-- Helper: with a profile whose fields are in range and whose era started no later
than the current tick, `get_remaining` returns the exact mathematical value. -/
theorem get_remaining_of_profile (s : Store) (t c : Nat) (p : Profile)
    (hp : s c = some p) (hsb : p.start_block ≤ t) (he : p.claim_era ≤ 255) :
    get_remaining s t c =
      some (if p.claim_era ≤ t - p.start_block then 0
            else p.claim_era - (t - p.start_block)) := by
  have hsub : checkedSub t p.start_block = some (t - p.start_block) := if_pos hsb
  by_cases hlt : p.claim_era ≤ t - p.start_block
  · simp only [get_remaining, hp, hsub, if_pos hlt]
  · have hsmall : t - p.start_block < 256 := by omega
    have htr : truncU8 (t - p.start_block) = t - p.start_block := Nat.mod_eq_of_lt hsmall
    have hfin : checkedSub p.claim_era (truncU8 (t - p.start_block)) =
        some (p.claim_era - (t - p.start_block)) := by
      rw [htr]
      exact if_pos (by omega)
    simp only [get_remaining, hp, hsub, if_neg hlt, hfin]

/-- Helper: exhaustive characterization of every branch of `claim`. -/
theorem claim_characterization (s : Store) (t c : Nat) :
    (get_remaining s t c = none → claim s t c = none) ∧
    (∀ r, get_remaining s t c = some r → r ≠ 0 →
      claim s t c = some (Except.error Error.TooEarlyToClaim, s)) ∧
    (get_remaining s t c = some 0 → s c = none → claim s t c = none) ∧
    (∀ p, get_remaining s t c = some 0 → s c = some p → 255 ≤ p.badges_claimed →
      claim s t c = none) ∧
    (∀ p, get_remaining s t c = some 0 → s c = some p → p.badges_claimed < 255 →
      claim s t c = some (Except.ok (),
        insert s c ⟨p.claim_era, t, p.badges_claimed + 1⟩)) := by
  refine ⟨?_, ?_, ?_, ?_, ?_⟩
  · intro h
    simp only [claim, h]
  · intro r h hr
    simp only [claim, h, if_neg hr]
  · intro h hc
    simp only [claim, h, if_pos rfl, get_profile, hc, if_true]
  · intro p h hc hb
    have hadd : checkedAdd8 p.badges_claimed 1 = none := if_neg (by omega)
    simp only [claim, h, if_pos rfl, get_profile, hc, hadd, if_true]
  · intro p h hc hb
    have hadd : checkedAdd8 p.badges_claimed 1 = some (p.badges_claimed + 1) :=
      if_pos (by omega)
    simp only [claim, h, if_pos rfl, get_profile, hc, hadd, if_true]

/-- Helper: inversion of a successful `claim`. -/
theorem claim_ok_inv (s : Store) (t c : Nat) (s2 : Store)
    (h : claim s t c = some (Except.ok (), s2)) :
    ∃ p, s c = some p ∧ get_remaining s t c = some 0 ∧ p.badges_claimed < 255 ∧
      s2 = insert s c ⟨p.claim_era, t, p.badges_claimed + 1⟩ := by
  rcases hrem : get_remaining s t c with _ | rv
  · rw [(claim_characterization s t c).1 hrem] at h
    exact Option.noConfusion h
  · by_cases hz : rv = 0
    · subst hz
      rcases hc : s c with _ | p
      · rw [(claim_characterization s t c).2.2.1 hrem hc] at h
        exact Option.noConfusion h
      · by_cases hb : p.badges_claimed < 255
        · rw [(claim_characterization s t c).2.2.2.2 p hrem hc hb] at h
          have h2 := Option.some.inj h
          exact ⟨p, rfl, rfl, hb, (congrArg Prod.snd h2).symm⟩
        · rw [(claim_characterization s t c).2.2.2.1 p hrem hc (by omega)] at h
          exact Option.noConfusion h
    · rw [(claim_characterization s t c).2.1 rv hrem hz] at h
      simp at h

/-- Helper: inversion of a `claim` that returned an error. -/
theorem claim_error_inv (s : Store) (t c : Nat) (e : Error) (s2 : Store)
    (h : claim s t c = some (Except.error e, s2)) :
    e = Error.TooEarlyToClaim ∧ s2 = s ∧
      ∃ rv, get_remaining s t c = some rv ∧ rv ≠ 0 := by
  rcases hrem : get_remaining s t c with _ | rv
  · rw [(claim_characterization s t c).1 hrem] at h
    exact Option.noConfusion h
  · by_cases hz : rv = 0
    · subst hz
      rcases hc : s c with _ | p
      · rw [(claim_characterization s t c).2.2.1 hrem hc] at h
        exact Option.noConfusion h
      · by_cases hb : p.badges_claimed < 255
        · rw [(claim_characterization s t c).2.2.2.2 p hrem hc hb] at h
          simp at h
        · rw [(claim_characterization s t c).2.2.2.1 p hrem hc (by omega)] at h
          exact Option.noConfusion h
    · rw [(claim_characterization s t c).2.1 rv hrem hz] at h
      have h2 := Option.some.inj h
      refine ⟨(Except.error.inj (congrArg Prod.fst h2)).symm,
              (congrArg Prod.snd h2).symm, rv, rfl, hz⟩

/-- C1: the spec requires a caller with no profile to receive `Err(UserNotFound)`
from `claim` with state unchanged.  On the code, absence reads as remaining 0,
so the `TooEarlyToClaim` guard passes, and the `.unwrap()` of
`get_profile().ok_or(Error::UserNotFound)` panics (contract trap, modelled as
`none`) instead of returning the error.  Evaluation at the failing input (empty
store, caller 0, tick 0): the guard value is 0 and `claim` traps. -/
theorem claim_no_profile_traps :
    get_remaining emptyStore 0 0 = some 0 ∧ claim emptyStore 0 0 = none :=
  ⟨rfl, rfl⟩

/-- C5: when the caller has a profile and `get_remaining` is positive, `claim`
returns `Err(TooEarlyToClaim)` with the store fully unchanged (the decision is
made before any mutation, so the error path performs no write). -/
theorem claim_too_early_unchanged (s : Store) (t c r : Nat) (p : Profile)
    (_hp : s c = some p) (hr : get_remaining s t c = some r) (hpos : 0 < r) :
    claim s t c = some (Except.error Error.TooEarlyToClaim, s) :=
  (claim_characterization s t c).2.1 r hr (by omega)

/-- C5 witness: account 0 started a 10-tick era at tick 0; at tick 9 the
remaining time is 1 and `claim` fails with `TooEarlyToClaim`, store unchanged. -/
theorem claim_too_early_unchanged_witness :
    claim storeStart10 9 0 = some (Except.error Error.TooEarlyToClaim, storeStart10) :=
  claim_too_early_unchanged storeStart10 9 0 1 ⟨10, 0, 0⟩ rfl rfl (by decide)

/-- C6: `start` always succeeds and unconditionally writes
`{claim_era := era, start_block := current tick, badges_claimed := 0}` for the
caller, replacing any prior profile (badge count reset included), and leaves
every other account's profile untouched. -/
theorem start_overwrites (s : Store) (t c e : Nat) :
    start s t c e c = some ⟨e, t, 0⟩ ∧ ∀ a, a ≠ c → start s t c e a = s a := by
  constructor
  · simp [start, insert]
  · intro a ha
    simp [start, insert, ha]

/-- C6 witness: restarting over a profile with 255 badges resets the badge count
to 0, and account 1 is unaffected. -/
theorem start_overwrites_witness :
    start storeMaxBadges 7 0 10 0 = some ⟨10, 7, 0⟩ ∧
    start storeMaxBadges 7 0 10 1 = none :=
  ⟨(start_overwrites storeMaxBadges 7 0 10).1,
   ((start_overwrites storeMaxBadges 7 0 10).2 1 (by decide)).trans rfl⟩

/-- C8: the explicit-account queries are pure reads — in this embedding they are
functions of the store that return no updated store, so they cannot mutate it —
and their result depends only on the queried account's entry and the current
tick: two stores agreeing at the queried account (the caller's own profile may
differ arbitrarily, and the caller is not even a parameter of the computation)
give identical results. -/
theorem for_queries_frame (s1 s2 : Store) (t a : Nat) (h : s1 a = s2 a) :
    get_remaining_for s1 t a = get_remaining_for s2 t a ∧
    get_badges_for s1 a = get_badges_for s2 a := by
  unfold get_remaining_for get_badges_for get_account_profile
  rw [h]
  exact ⟨rfl, rfl⟩

/-- C8 witness: a store where the caller has a profile and the empty store agree
at account 1, so the queries about account 1 coincide. -/
theorem for_queries_frame_witness :
    get_remaining_for storeStart10 5 1 = get_remaining_for emptyStore 5 1 ∧
    get_badges_for storeStart10 1 = get_badges_for emptyStore 1 :=
  for_queries_frame storeStart10 emptyStore 5 1 rfl

/-- C9: `claim` never returns the value `Err(UserNotFound)`: any returned value
is either `Ok` or `Err(TooEarlyToClaim)`; and when the caller has no profile the
guard reads remaining 0 (absence defaults to 0), after which the `.unwrap()` of
`get_profile()` panics (trap, `none`) instead of returning the error. -/
theorem claim_never_returns_user_not_found (s : Store) (t c : Nat) :
    (∀ r s2, claim s t c = some (r, s2) → r ≠ Except.error Error.UserNotFound) ∧
    (s c = none → get_remaining s t c = some 0 ∧ claim s t c = none) := by
  constructor
  · intro r s2 h hUNF
    subst hUNF
    obtain ⟨he, -, -⟩ := claim_error_inv s t c Error.UserNotFound s2 h
    exact absurd he (by simp)
  · intro hc
    have h0 : get_remaining s t c = some 0 := get_remaining_of_none s t c hc
    exact ⟨h0, (claim_characterization s t c).2.2.1 h0 hc⟩

/-- C9 witness: at the empty store and caller 1, the remaining time reads 0 and
`claim` traps rather than returning `Err(UserNotFound)`. -/
theorem claim_never_returns_user_not_found_witness :
    get_remaining emptyStore 3 1 = some 0 ∧ claim emptyStore 3 1 = none :=
  (claim_never_returns_user_not_found emptyStore 3 1).2 rfl

/-- C10: the caller-implicit queries agree with the explicit-account variants
instantiated at the caller; the source duplicates the computation textually and
the two definitions are extensionally (indeed definitionally) equal. -/
theorem caller_queries_agree (s : Store) (t c : Nat) :
    get_remaining s t c = get_remaining_for s t c ∧ get_badges s c = get_badges_for s c :=
  ⟨rfl, rfl⟩

/-- C2 counterexample: the claimed iff fails at the saturated badge counter.
At `storeMaxBadges` (caller 0 has a profile with `claim_era = 0` and
`badges_claimed = 255`) and tick 0, the caller has a profile and
`get_remaining` is 0, yet `claim` does not return success: the overflow-checked
`u8` increment `badges_claimed += 1` traps. -/
theorem claim_success_iff_cex :
    get_account_profile storeMaxBadges 0 = some ⟨0, 0, 255⟩ ∧
    get_remaining storeMaxBadges 0 0 = some 0 ∧
    claim storeMaxBadges 0 0 = none :=
  ⟨rfl, rfl, rfl⟩

/-- C2 (amended): provided the caller's badge counter is below 255 (so the u8
increment cannot overflow), `claim` returns success iff the caller has a
profile and `get_remaining(caller) == 0`; on success it increments
`badges_claimed` by exactly 1, sets `start_block` to the current tick, leaves
`claim_era` unchanged, writes exactly that one profile, and leaves every other
account's profile untouched. -/
theorem claim_success_iff (s : Store) (t c : Nat)
    (hb : ∀ p, s c = some p → p.badges_claimed < 255) :
    ((∃ s2, claim s t c = some (Except.ok (), s2)) ↔
      (∃ p, s c = some p) ∧ get_remaining s t c = some 0) ∧
    ∀ p s2, s c = some p → claim s t c = some (Except.ok (), s2) →
      s2 c = some ⟨p.claim_era, t, p.badges_claimed + 1⟩ ∧ ∀ x, x ≠ c → s2 x = s x := by
  constructor
  · constructor
    · rintro ⟨s2, h⟩
      obtain ⟨p, hc, h0, -, -⟩ := claim_ok_inv s t c s2 h
      exact ⟨⟨p, hc⟩, h0⟩
    · rintro ⟨⟨p, hc⟩, h0⟩
      exact ⟨_, (claim_characterization s t c).2.2.2.2 p h0 hc (hb p hc)⟩
  · intro p s2 hc h
    obtain ⟨q, hq, -, -, hs2⟩ := claim_ok_inv s t c s2 h
    have hpq : q = p := Option.some.inj (hq.symm.trans hc)
    subst hpq
    subst hs2
    constructor
    · simp [insert]
    · intro x hx
      simp [insert, hx]

/-- C2 witness: with a 10-tick era started at tick 0 and a zero badge counter,
`claim` at tick 10 succeeds. -/
theorem claim_success_iff_witness :
    ∃ s2, claim storeStart10 10 0 = some (Except.ok (), s2) := by
  have hb : ∀ p, storeStart10 0 = some p → p.badges_claimed < 255 := by
    intro p hp
    injection hp with h
    subst h
    decide
  exact (claim_success_iff storeStart10 10 0 hb).1.mpr ⟨⟨_, rfl⟩, rfl⟩

/-- C3: `get_remaining` returns 0 when no profile exists; with a profile whose
era began no later than the current tick it returns 0 once
`elapsed >= claim_era` and `claim_era - elapsed` before that; and after
`start(identity, e)` at tick `T` it reads `e` immediately, `e - (t - T)` at any
later tick `t` with `t - T < e`, and 0 once `t - T >= e`. -/
theorem get_remaining_value (s s0 : Store) (t T e c : Nat)
    (he : e ≤ 255) (hT : T ≤ t) :
    (s c = none → get_remaining s t c = some 0) ∧
    (∀ p, s c = some p → p.start_block ≤ t → p.claim_era ≤ 255 →
      get_remaining s t c =
        some (if p.claim_era ≤ t - p.start_block then 0
              else p.claim_era - (t - p.start_block))) ∧
    get_remaining (start s0 T c e) T c = some e ∧
    (t - T < e → get_remaining (start s0 T c e) t c = some (e - (t - T))) ∧
    (e ≤ t - T → get_remaining (start s0 T c e) t c = some 0) := by
  have hsc : (start s0 T c e) c = some (⟨e, T, 0⟩ : Profile) := by
    simp [start, insert]
  refine ⟨fun h => get_remaining_of_none s t c h,
          fun p hp h1 h2 => get_remaining_of_profile s t c p hp h1 h2, ?_, ?_, ?_⟩
  · rw [get_remaining_of_profile (start s0 T c e) T c ⟨e, T, 0⟩ hsc (le_refl T) he]
    dsimp only
    split_ifs with h
    · exact congrArg some (by omega)
    · exact congrArg some (by omega)
  · intro hlt
    rw [get_remaining_of_profile (start s0 T c e) t c ⟨e, T, 0⟩ hsc hT he]
    rw [if_neg (by simpa using hlt)]
  · intro hge
    rw [get_remaining_of_profile (start s0 T c e) t c ⟨e, T, 0⟩ hsc hT he]
    rw [if_pos (by simpa using hge)]

/-- C3 witness: starting a 10-tick era at tick 0 gives remaining 10 at tick 0,
7 at tick 3, and 0 at tick 12; a missing profile reads 0. -/
theorem get_remaining_value_witness :
    get_remaining emptyStore 3 0 = some 0 ∧
    get_remaining (start emptyStore 0 0 10) 0 0 = some 10 ∧
    get_remaining (start emptyStore 0 0 10) 3 0 = some 7 ∧
    get_remaining (start emptyStore 0 0 10) 12 0 = some 0 :=
  ⟨(get_remaining_value emptyStore emptyStore 3 0 10 0 (by decide) (by decide)).1 rfl,
   (get_remaining_value emptyStore emptyStore 3 0 10 0 (by decide) (by decide)).2.2.1,
   (get_remaining_value emptyStore emptyStore 3 0 10 0 (by decide) (by decide)).2.2.2.1
     (by decide),
   (get_remaining_value emptyStore emptyStore 12 0 10 0 (by decide) (by decide)).2.2.2.2
     (by decide)⟩

/-- C4: badge counts never decrease across `claim` (the only exposed operation
other than `start` that writes): whatever `claim` returns, every account whose
profile existed before still has at least its old badge count, and on success
the caller's count is exactly the old count plus 1.  The read-only queries
return no store in this embedding, so no other operation can decrease it. -/
theorem badges_monotone (s : Store) (t c : Nat) (r : Except Error Unit) (s2 : Store)
    (h : claim s t c = some (r, s2)) :
    (∀ a p q, s a = some p → s2 a = some q → p.badges_claimed ≤ q.badges_claimed) ∧
    (r = Except.ok () → ∀ p, s c = some p →
      s2 c = some ⟨p.claim_era, t, p.badges_claimed + 1⟩) := by
  cases r with
  | error e =>
    obtain ⟨he, hs, -⟩ := claim_error_inv s t c e s2 h
    subst hs
    constructor
    · intro a p q hpa hqa
      rw [hpa] at hqa
      exact le_of_eq (congrArg Profile.badges_claimed (Option.some.inj hqa))
    · intro hok
      rw [he] at hok
      exact absurd hok (by simp)
  | ok u =>
    cases u
    obtain ⟨p0, hc0, -, -, hs2⟩ := claim_ok_inv s t c s2 h
    subst hs2
    constructor
    · intro a p q hpa hqa
      by_cases hac : a = c
      · subst hac
        have hp0 : p = p0 := Option.some.inj (hpa.symm.trans hc0)
        subst hp0
        simp only [insert, if_pos rfl] at hqa
        have hq : q = ⟨p.claim_era, t, p.badges_claimed + 1⟩ :=
          (Option.some.inj hqa).symm
        subst hq
        exact Nat.le_succ _
      · have hfr : insert s c ⟨p0.claim_era, t, p0.badges_claimed + 1⟩ a = s a := by
          simp [insert, hac]
        rw [hfr, hpa] at hqa
        exact le_of_eq (congrArg Profile.badges_claimed (Option.some.inj hqa))
    · intro _ p hc
      have hp0 : p = p0 := Option.some.inj (hc.symm.trans hc0)
      subst hp0
      simp [insert]

/-- C4 witness: a successful claim at tick 10 over the era started at tick 0
rewrites the caller's profile to badge count 1 = 0 + 1. -/
theorem badges_monotone_witness :
    insert storeStart10 0 ⟨10, 10, 1⟩ 0 = some ⟨10, 10, 1⟩ :=
  (badges_monotone storeStart10 10 0 (Except.ok ())
    (insert storeStart10 0 ⟨10, 10, 1⟩) rfl).2 rfl ⟨10, 0, 0⟩ rfl

/-- C7: arithmetic safety of the remaining-time queries.  When every stored
profile consulted has `start_block <= t` (ticks only advance) and an in-range
`u8` era, neither query traps (`isSome`); the wide `u32` subtraction computes
the exact elapsed value (no wraparound before the comparison), and in the
not-yet-elapsed branch the `as u8` narrowing is lossless and the final `u8`
subtraction cannot underflow, returning the exact difference. -/
theorem get_remaining_arith_safe (s : Store) (t c a : Nat)
    (hc : ∀ p, s c = some p → p.start_block ≤ t ∧ p.claim_era ≤ 255)
    (ha : ∀ p, s a = some p → p.start_block ≤ t ∧ p.claim_era ≤ 255) :
    (get_remaining s t c).isSome = true ∧
    (get_remaining_for s t a).isSome = true ∧
    ∀ p, s a = some p →
      checkedSub t p.start_block = some (t - p.start_block) ∧
      (t - p.start_block < p.claim_era →
        truncU8 (t - p.start_block) = t - p.start_block ∧
        checkedSub p.claim_era (truncU8 (t - p.start_block)) =
          some (p.claim_era - (t - p.start_block))) := by
  have key : ∀ x : Nat, (∀ p, s x = some p → p.start_block ≤ t ∧ p.claim_era ≤ 255) →
      (get_remaining s t x).isSome = true := by
    intro x hx
    rcases hsx : s x with _ | p
    · rw [get_remaining_of_none s t x hsx]
      rfl
    · rw [get_remaining_of_profile s t x p hsx (hx p hsx).1 (hx p hsx).2]
      rfl
  refine ⟨key c hc, ?_, ?_⟩
  · have : get_remaining_for s t a = get_remaining s t a := rfl
    rw [this]
    exact key a ha
  · intro p hpa
    obtain ⟨h1, h2⟩ := ha p hpa
    refine ⟨if_pos h1, fun hlt => ?_⟩
    have htr : truncU8 (t - p.start_block) = t - p.start_block :=
      Nat.mod_eq_of_lt (by omega)
    refine ⟨htr, ?_⟩
    rw [htr]
    exact if_pos (by omega)

/-- C7 witness: with the profile started at tick 0 and queried at tick 5,
neither query traps and the checked subtractions return exact values. -/
theorem get_remaining_arith_safe_witness :
    (get_remaining storeStart10 5 0).isSome = true ∧
    (get_remaining_for storeStart10 5 0).isSome = true := by
  have hW : ∀ p, storeStart10 0 = some p → p.start_block ≤ 5 ∧ p.claim_era ≤ 255 := by
    intro p hp
    injection hp with h
    subst h
    exact ⟨by decide, by decide⟩
  exact ⟨(get_remaining_arith_safe storeStart10 5 0 0 hW hW).1,
         (get_remaining_arith_safe storeStart10 5 0 0 hW hW).2.1⟩

end Magink
